import Mathlib

/-!
# ACR122U tutorial: a shallow embedding of `main.c`

The C program talks to a PC/SC resource manager through eight `SCard*`
functions and reports on standard output.  Here

* the resource manager is an oracle that answers every call from the history
  of calls made so far,
* the four global variables, the log of external calls and the text printed
  form an explicit `State`,
* every C function is a function `State → Outcome`; `exit(1)` ends the run
  with `Outcome.exited 1`; the pointer walk of `listReaders` ends it with
  `Outcome.undefined` when it leaves the block of the reader list; the loops
  that print an array run to the reported length, whatever the array holds,
* `uint8_t` values are naturals reduced modulo 256, `unsigned short` values
  modulo 65536, and a `DWORD` holding `-1` is `2 ^ dwordBits - 1`.
-/

namespace ACR122U

/-! ## What `winscard.h` provides -/

/-- Constants of the PC/SC header `winscard.h`, which is not part of the
repository; the program is modelled for any choice of them. -/
structure Winscard where
  SCARD_S_SUCCESS : Int
  SCARD_SCOPE_SYSTEM : Nat
  SCARD_SHARE_SHARED : Nat
  SCARD_LEAVE_CARD : Nat
  SCARD_PROTOCOL_T0 : Nat
  SCARD_PROTOCOL_T1 : Nat
  MAX_ATR_SIZE : Nat
  MAX_READERNAME : Nat
  dwordBits : Nat

/-- The values these constants have in pcsc-lite on a 64-bit Linux. -/
def pcsclite : Winscard where
  SCARD_S_SUCCESS := 0
  SCARD_SCOPE_SYSTEM := 2
  SCARD_SHARE_SHARED := 2
  SCARD_LEAVE_CARD := 0
  SCARD_PROTOCOL_T0 := 1
  SCARD_PROTOCOL_T1 := 2
  MAX_ATR_SIZE := 33
  MAX_READERNAME := 128
  dwordBits := 64

/-- The two protocol control headers `SCARD_PCI_T0` and `SCARD_PCI_T1`. -/
inductive Pci where
  | SCARD_PCI_T0
  | SCARD_PCI_T1
  deriving DecidableEq

/-- One call of the program into the resource manager, with the arguments the
program passes by value.  A `reader` pointer is `none` for `NULL` and
otherwise the memory block it points to. -/
inductive Call where
  | SCardEstablishContext (dwScope : Nat)
  | SCardReleaseContext (hContext : Nat)
  | SCardListReaders (hContext : Nat)
  | SCardFreeMemory (hContext : Nat) (pvMem : Option (List Nat))
  | SCardConnect (hContext : Nat) (szReader : Option (List Nat))
      (dwShareMode dwPreferredProtocols : Nat)
  | SCardDisconnect (hCard : Nat) (dwDisposition : Nat)
  | SCardStatus (hCard : Nat) (readerLength ATRLength : Nat)
  | SCardTransmit (hCard : Nat) (pioSendPci : Pci) (command : List Nat)
      (commandLength : Nat) (responseLength : Nat)
  deriving DecidableEq

/-- Which of the eight functions a call is to. -/
inductive CallKind where
  | establishContext
  | releaseContext
  | listReaders
  | freeMemory
  | connect
  | disconnect
  | status
  | transmit
  deriving DecidableEq

/-- The function a call is to, its arguments dropped. -/
def Call.kind : Call → CallKind
  | .SCardEstablishContext _ => .establishContext
  | .SCardReleaseContext _ => .releaseContext
  | .SCardListReaders _ => .listReaders
  | .SCardFreeMemory _ _ => .freeMemory
  | .SCardConnect _ _ _ _ => .connect
  | .SCardDisconnect _ _ => .disconnect
  | .SCardStatus _ _ _ => .status
  | .SCardTransmit _ _ _ _ _ => .transmit

/-- What `SCardStatus` leaves in the caller's variables: the string that
`readerName` holds after the call (its characters up to the first NUL), the
memory cells from the start of `ATR` on, and `ATRLength`. -/
structure StatusReply where
  status : Int
  readerName : List Nat
  ATR : Nat → Nat
  ATRLength : Nat

/-- What `SCardTransmit` leaves in the caller's variables: the memory cells
from the start of `response` on after the call, and `responseLength`. -/
structure TransmitReply where
  status : Int
  response : Nat → Nat
  responseLength : Nat

/-- A resource manager: each function receives the calls made so far, the
current one last, and gives the returned status with the values stored through
the output pointers. -/
structure ResourceManager where
  SCardEstablishContext : List Call → Int × Nat
  SCardReleaseContext : List Call → Int
  SCardListReaders : List Call → Int × List Nat
  SCardFreeMemory : List Call → Int
  SCardConnect : List Call → Int × Nat × Nat
  SCardDisconnect : List Call → Int
  SCardStatus : List Call → StatusReply
  SCardTransmit : List Call → TransmitReply

/-- A call together with the status it returned. -/
structure Event where
  call : Call
  status : Int
  deriving DecidableEq

/-- One piece of text written by `printf`. -/
inductive Printed where
  | lit (text : String)
  | str (chars : List Nat)
  | hex02 (byte : Nat)
  | stringify_error (status : Int)
  deriving DecidableEq

/-- The globals of `main.c`, the external calls made and the text printed. -/
structure State where
  applicationContext : Nat
  reader : Option (List Nat)
  connectionHandler : Nat
  activeProtocol : Nat
  events : List Event
  stdout : List Printed
  deriving DecidableEq

/-- The state in which `main` starts: zeroed globals, `reader = NULL`. -/
def State.initial : State where
  applicationContext := 0
  reader := none
  connectionHandler := 0
  activeProtocol := 0
  events := []
  stdout := []

/-- The calls made so far, oldest first. -/
def State.calls (s : State) : List Call :=
  s.events.map Event.call

/-- Append text to standard output. -/
def State.printf (s : State) (out : List Printed) : State :=
  { s with stdout := s.stdout ++ out }

/-- The assignment `applicationContext = v`. -/
def State.setApplicationContext (s : State) (v : Nat) : State :=
  { s with applicationContext := v }

/-- The assignment `reader = v`. -/
def State.setReader (s : State) (v : Option (List Nat)) : State :=
  { s with reader := v }

/-- The assignment `connectionHandler = v`. -/
def State.setConnectionHandler (s : State) (v : Nat) : State :=
  { s with connectionHandler := v }

/-- The assignment `activeProtocol = v`. -/
def State.setActiveProtocol (s : State) (v : Nat) : State :=
  { s with activeProtocol := v }

/-- Record an external call and its returned status. -/
def State.record (s : State) (c : Call) (status : Int) : State :=
  { s with events := s.events ++ [⟨c, status⟩] }

/-- How a piece of the program ends: it returns to its caller, it ends the
process with an exit code, or it reads outside the block of the reader list. -/
inductive Outcome where
  | running (s : State)
  | exited (code : Nat) (s : State)
  | undefined (s : State)
  deriving DecidableEq

/-- The state reached, however the run ended. -/
def Outcome.state : Outcome → State
  | .running s => s
  | .exited _ s => s
  | .undefined s => s

/-- The exit code, when the process was ended by `exit`. -/
def Outcome.exitCode : Outcome → Option Nat
  | .exited c _ => some c
  | _ => none

/-- Whether the piece of program returned to its caller. -/
def Outcome.returned : Outcome → Bool
  | .running _ => true
  | _ => false

/-- Whether the run read outside the block of the reader list. -/
def Outcome.isUndefined : Outcome → Bool
  | .undefined _ => true
  | _ => false

/-- How many calls to the function `k` the run made. -/
def Outcome.callCount (o : Outcome) (k : CallKind) : Nat :=
  (o.state.calls.map Call.kind).count k

/-- Sequencing of two statements: the second runs only if the first returns. -/
def Outcome.andThen (o : Outcome) (f : State → Outcome) : Outcome :=
  match o with
  | .running s => f s
  | .exited c s => .exited c s
  | .undefined s => .undefined s

/-! ## C strings and arrays -/

/-- The characters of the C string that starts at the head of `mem`, the
terminating NUL excluded; `none` when `mem` ends before a NUL is met. -/
def cString : List Nat → Option (List Nat)
  | [] => none
  | c :: rest => if c = 0 then some [] else (cString rest).map (fun n => c :: n)

/-- The loop `for (int i=0; i<n; i++) printf("%02X ", a[i]);`: it prints the
cells `a[0]` to `a[n-1]`, with no test of `n` against the size of `a`. -/
def printHex (cells : Nat → Nat) (n : Nat) : List Printed :=
  (List.range n).flatMap (fun i => [Printed.hex02 (cells i), Printed.lit " "])

/-- An array `uint8_t a[n] = { ... }`: the initialisers, then zeros. -/
def arrayInit (n : Nat) (init : List Nat) : List Nat :=
  init.map (fun b => b % 256) ++ List.replicate (n - init.length) 0

/-- An array `uint8_t a[] = { ... }`, as long as its initialiser list. -/
def uint8Array (init : List Nat) : List Nat :=
  arrayInit init.length init

/-- The loop `for (int i=0; i<n; i++) dst[i+5] = src[i];`. -/
def copyAt5 (n : Nat) (dst src : List Nat) : List Nat :=
  (List.range n).foldl (fun a i => a.set (i + 5) (src.getD i 0)) dst

/-- The value `sizeof(a)` stored in an `unsigned short`. -/
def sizeofShort (a : List Nat) : Nat :=
  a.length % 65536

/-! ## The functions of `main.c` -/

/-- `establishContext`, lines 14-22. -/
def establishContext (K : Winscard) (rm : ResourceManager) (s : State) : Outcome :=
  let call := Call.SCardEstablishContext K.SCARD_SCOPE_SYSTEM
  let reply := rm.SCardEstablishContext (s.calls ++ [call])
  let s1 := s.record call reply.1
  if reply.1 = K.SCARD_S_SUCCESS then
    .running ((s1.setApplicationContext reply.2).printf [.lit "Context established\n"])
  else
    .exited 1 (s1.printf [.lit "Establish context error: ", .stringify_error reply.1, .lit "\n"])

/-- `releaseContext`, lines 23-31. -/
def releaseContext (K : Winscard) (rm : ResourceManager) (s : State) : Outcome :=
  let call := Call.SCardReleaseContext s.applicationContext
  let status := rm.SCardReleaseContext (s.calls ++ [call])
  let s1 := s.record call status
  if status = K.SCARD_S_SUCCESS then
    .running (s1.printf [.lit "Context released\n"])
  else
    .exited 1 (s1.printf [.lit "Release context error: ", .stringify_error status, .lit "\n"])

/-- The loop of lines 39-43 over the block `mem`, with `p` the offset of the
pointer in the block: `none` only when the `fuel` iterations do not suffice. -/
def listReadersLoop (mem : List Nat) : Nat → Nat → State → Option Outcome
  | 0, _, _ => none
  | fuel + 1, p, s =>
    match mem[p]? with
    | none => some (.undefined s)
    | some c =>
      if c = 0 then some (.running s)
      else
        match cString (mem.drop p) with
        | none => some (.undefined s)
        | some name =>
          listReadersLoop mem fuel (p + (name.length + 1))
            (s.printf [.lit "Reader found: ", .str name, .lit "\n"])

/-- `listReaders`, lines 34-48.  Every iteration of the loop moves the pointer
forward, so one more iteration than the block has bytes is always enough
(`listReadersLoop_isSome`). -/
def listReaders (K : Winscard) (rm : ResourceManager) (s : State) : Outcome :=
  let call := Call.SCardListReaders s.applicationContext
  let reply := rm.SCardListReaders (s.calls ++ [call])
  let s1 := s.record call reply.1
  if reply.1 = K.SCARD_S_SUCCESS then
    let s2 := s1.setReader (some reply.2)
    match listReadersLoop reply.2 (reply.2.length + 1) 0 s2 with
    | some o => o
    | none => .undefined s2
  else
    .exited 1 (s1.printf [.lit "List reader error: ", .stringify_error reply.1, .lit "\n"])

/-- `freeListReader`, lines 49-57. -/
def freeListReader (K : Winscard) (rm : ResourceManager) (s : State) : Outcome :=
  let call := Call.SCardFreeMemory s.applicationContext s.reader
  let status := rm.SCardFreeMemory (s.calls ++ [call])
  let s1 := s.record call status
  if status = K.SCARD_S_SUCCESS then
    .running (s1.printf [.lit "Reader list free\n"])
  else
    .exited 1 (s1.printf [.lit "Free reader list error: ", .stringify_error status, .lit "\n"])

/-- `connectToCard`, lines 60-70. -/
def connectToCard (K : Winscard) (rm : ResourceManager) (s : State) : Outcome :=
  let s0 := s.setActiveProtocol (2 ^ K.dwordBits - 1)
  let call := Call.SCardConnect s0.applicationContext s0.reader K.SCARD_SHARE_SHARED
    (K.SCARD_PROTOCOL_T0 ||| K.SCARD_PROTOCOL_T1)
  let reply := rm.SCardConnect (s0.calls ++ [call])
  let s1 := s0.record call reply.1
  if reply.1 = K.SCARD_S_SUCCESS then
    .running (((s1.setConnectionHandler reply.2.1).setActiveProtocol reply.2.2).printf
      [.lit "Connected to card\n"])
  else
    .exited 1 (s1.printf [.lit "Card connection error: ", .stringify_error reply.1, .lit "\n"])

/-- `disconnectFromCard`, lines 71-79. -/
def disconnectFromCard (K : Winscard) (rm : ResourceManager) (s : State) : Outcome :=
  let call := Call.SCardDisconnect s.connectionHandler K.SCARD_LEAVE_CARD
  let status := rm.SCardDisconnect (s.calls ++ [call])
  let s1 := s.record call status
  if status = K.SCARD_S_SUCCESS then
    .running (s1.printf [.lit "Disconnected from card\n"])
  else
    .exited 1 (s1.printf [.lit "Card deconnection error: ", .stringify_error status, .lit "\n"])

/-- `getCardInformation`, lines 82-103. -/
def getCardInformation (K : Winscard) (rm : ResourceManager) (s : State) : Outcome :=
  let call := Call.SCardStatus s.connectionHandler K.MAX_READERNAME K.MAX_ATR_SIZE
  let reply := rm.SCardStatus (s.calls ++ [call])
  let s1 := s.record call reply.status
  if reply.status = K.SCARD_S_SUCCESS then
    let s2 := s1.printf [.lit "\n"]
    let s3 := s2.printf [.lit "Name of the reader: ", .str reply.readerName, .lit "\n"]
    let s4 := s3.printf [.lit "ATR: "]
    let s5 := s4.printf (printHex reply.ATR reply.ATRLength)
    .running (s5.printf [.lit "\n\n"])
  else
    .exited 1 (s1.printf
      [.lit "Get card information error: ", .stringify_error reply.status, .lit "\n"])

/-- The protocol switch of `sendCommand`, lines 112-122: the header chosen, or
`none` in the `default` case. -/
def selectPci (K : Winscard) (activeProtocol : Nat) : Option Pci :=
  if activeProtocol = K.SCARD_PROTOCOL_T0 then some .SCARD_PCI_T0
  else if activeProtocol = K.SCARD_PROTOCOL_T1 then some .SCARD_PCI_T1
  else none

/-- `sendCommand`, lines 106-139; `response` has 300 cells, and that size is
passed to `SCardTransmit`.  The cells of `command` are read through `getD`;
every caller passes `sizeof` of the array as `commandLength`. -/
def sendCommand (K : Winscard) (rm : ResourceManager) (command : List Nat)
    (commandLength : Nat) (s : State) : Outcome :=
  match selectPci K s.activeProtocol with
  | none => .exited 1 (s.printf [.lit "Protocol not found\n"])
  | some pioSendPci =>
    let call := Call.SCardTransmit s.connectionHandler pioSendPci command commandLength 300
    let reply := rm.SCardTransmit (s.calls ++ [call])
    let s1 := s.record call reply.status
    if reply.status = K.SCARD_S_SUCCESS then
      let s2 := s1.printf [.lit "Command sent: \n"]
      let s3 := s2.printf (printHex (fun i => command.getD i 0) commandLength)
      let s4 := s3.printf [.lit "\nResponse: \n"]
      let s5 := s4.printf (printHex reply.response reply.responseLength)
      .running (s5.printf [.lit "\n\n"])
    else
      .exited 1 (s1.printf [.lit "Send command error: ", .stringify_error reply.status, .lit "\n"])

/-- The array `readCommand` of `mifareUltralight`, line 146. -/
def mifareUltralight_readCommand (pageNumber : Nat) : List Nat :=
  arrayInit 5 [0xFF, 0xB0, 0x00, pageNumber, 0x10]

/-- The array `writeCommand` of `mifareUltralight` after the loop, lines 151-156. -/
def mifareUltralight_writeCommand (pageNumber : Nat) (data : List Nat) : List Nat :=
  copyAt5 4 (arrayInit 9 [0xFF, 0xD6, 0x00, pageNumber, 0x04]) (uint8Array data)

/-- The body of `mifareUltralight`, lines 141-158, for a given `pageNumber` and `data`. -/
def mifareUltralightWith (K : Winscard) (rm : ResourceManager) (pageNumber : Nat)
    (data : List Nat) (s : State) : Outcome :=
  let s1 := s.printf [.lit "### MIFARE Ultralight ###\n"]
  let readCommand := mifareUltralight_readCommand pageNumber
  (sendCommand K rm readCommand (sizeofShort readCommand) s1).andThen fun s2 =>
  let writeCommand := mifareUltralight_writeCommand pageNumber data
  sendCommand K rm writeCommand (sizeofShort writeCommand) s2

/-- `mifareUltralight` with the values of lines 143 and 151. -/
def mifareUltralight (K : Winscard) (rm : ResourceManager) (s : State) : Outcome :=
  mifareUltralightWith K rm 0x04 [0x00, 0x01, 0x02, 0x03] s

/-- The array `authenticationKeysCommand` of `mifareClassic` after the loop,
lines 166-171. -/
def mifareClassic_authenticationKeysCommand (key : List Nat) : List Nat :=
  copyAt5 6 (arrayInit 11 [0xFF, 0x82, 0x00, 0x00, 0x06]) (uint8Array key)

/-- The array `authenticateCommand` of `mifareClassic`, line 175. -/
def mifareClassic_authenticateCommand (blockNumber : Nat) : List Nat :=
  arrayInit 10 [0xFF, 0x86, 0x00, 0x00, 0x05, 0x01, 0x00, blockNumber, 0x60, 0x00]

/-- The array `readCommand` of `mifareClassic`, line 180. -/
def mifareClassic_readCommand (blockNumber : Nat) : List Nat :=
  arrayInit 5 [0xFF, 0xB0, 0x00, blockNumber, 0x10]

/-- The array `writeCommand` of `mifareClassic` after the loop, lines 185-190. -/
def mifareClassic_writeCommand (blockNumber : Nat) (data : List Nat) : List Nat :=
  copyAt5 16 (arrayInit 21 [0xFF, 0xD6, 0x00, blockNumber, 0x10]) (uint8Array data)

/-- The body of `mifareClassic`, lines 161-192, for a given `blockNumber`, `key`
and `data`. -/
def mifareClassicWith (K : Winscard) (rm : ResourceManager) (blockNumber : Nat)
    (key data : List Nat) (s : State) : Outcome :=
  let s1 := s.printf [.lit "### MIFARE Classic ###\n"]
  let authenticationKeysCommand := mifareClassic_authenticationKeysCommand key
  (sendCommand K rm authenticationKeysCommand (sizeofShort authenticationKeysCommand) s1).andThen
  fun s2 =>
  let authenticateCommand := mifareClassic_authenticateCommand blockNumber
  (sendCommand K rm authenticateCommand (sizeofShort authenticateCommand) s2).andThen fun s3 =>
  let readCommand := mifareClassic_readCommand blockNumber
  (sendCommand K rm readCommand (sizeofShort readCommand) s3).andThen fun s4 =>
  let writeCommand := mifareClassic_writeCommand blockNumber data
  sendCommand K rm writeCommand (sizeofShort writeCommand) s4

/-- `mifareClassic` with the values of lines 163, 166 and 185. -/
def mifareClassic (K : Winscard) (rm : ResourceManager) (s : State) : Outcome :=
  mifareClassicWith K rm 0x04 [0xFF, 0xFF, 0xFF, 0xFF, 0xFF, 0xFF]
    [0x00, 0x01, 0x02, 0x03, 0x04, 0x05, 0x06, 0x07, 0x08, 0x09, 0x0A, 0x0B, 0x0C, 0x0D, 0x0E,
      0x0F] s

/-- The array `firmwareCommand` of `main`, line 203. -/
def firmwareCommand : List Nat :=
  arrayInit 5 [0xFF, 0x00, 0x48, 0x00, 0x00]

/-- `main`, lines 195-215; `return 0` ends the process with exit code 0. -/
def main (K : Winscard) (rm : ResourceManager) : Outcome :=
  ((((((((establishContext K rm State.initial).andThen
    (listReaders K rm)).andThen
    (connectToCard K rm)).andThen
    (getCardInformation K rm)).andThen fun s =>
    sendCommand K rm firmwareCommand (sizeofShort firmwareCommand)
      (s.printf [.lit "Firmware command:\n"])).andThen
    (mifareUltralight K rm)).andThen
    (disconnectFromCard K rm)).andThen
    (freeListReader K rm)).andThen
    (releaseContext K rm) |>.andThen fun s => .exited 0 s

/-! ## Resource managers used as examples -/

/-- A resource manager on which every call succeeds: one reader `"R"`, the
protocol T1, a three-byte ATR and the response `90 00` to every command. -/
def okManager : ResourceManager where
  SCardEstablishContext := fun _ => (0, 7)
  SCardReleaseContext := fun _ => 0
  SCardListReaders := fun _ => (0, [82, 0, 0])
  SCardFreeMemory := fun _ => 0
  SCardConnect := fun _ => (0, 9, 2)
  SCardDisconnect := fun _ => 0
  SCardStatus := fun _ => ⟨0, [82], fun i => 0x3B + i, 3⟩
  SCardTransmit := fun _ => ⟨0, fun i => if i = 0 then 0x90 else 0, 2⟩

/-- A resource manager whose `SCardStatus` fails and whose other calls succeed. -/
def failStatusManager : ResourceManager :=
  { okManager with SCardStatus := fun _ => ⟨1, [], fun _ => 0, 0⟩ }

/-- A resource manager whose `SCardListReaders` fails. -/
def failListManager : ResourceManager :=
  { okManager with SCardListReaders := fun _ => (1, []) }

/-- A resource manager whose `SCardListReaders` succeeds with an empty
multi-string, a single NUL. -/
def emptyListManager : ResourceManager :=
  { okManager with SCardListReaders := fun _ => (0, [0]) }

/-- A resource manager that lists the two readers `"R"` and `"ST"`. -/
def twoReadersManager : ResourceManager :=
  { okManager with SCardListReaders := fun _ => (0, [82, 0, 83, 84, 0, 0]) }

/-- The state in which `connectToCard` leaves `activeProtocol` before it calls
`SCardConnect`, for a 64-bit `DWORD`. -/
def beforeConnect : State where
  applicationContext := 7
  reader := some [82, 0, 0]
  connectionHandler := 0
  activeProtocol := 2 ^ 64 - 1
  events := []
  stdout := []

/-- The reader multi-string for a list of names: every name followed by a NUL,
then one more NUL. -/
def multiString : List (List Nat) → List Nat
  | [] => [0]
  | name :: names => name ++ 0 :: multiString names

/-- What the loop of `listReaders` prints for a list of names. -/
def readersFound (names : List (List Nat)) : List Printed :=
  names.flatMap fun name => [.lit "Reader found: ", .str name, .lit "\n"]

/-! ## The shape of a run of `main` -/

/-- The calls of a run of `main` on which every call succeeds, for the context
`ctx`, the reader block `reader`, the card handle `h` and the header `pci`. -/
def fullTrace (K : Winscard) (ctx : Nat) (reader : Option (List Nat)) (h : Nat) (pci : Pci) :
    List Call :=
  [ .SCardEstablishContext K.SCARD_SCOPE_SYSTEM,
    .SCardListReaders ctx,
    .SCardConnect ctx reader K.SCARD_SHARE_SHARED (K.SCARD_PROTOCOL_T0 ||| K.SCARD_PROTOCOL_T1),
    .SCardStatus h K.MAX_READERNAME K.MAX_ATR_SIZE,
    .SCardTransmit h pci [0xFF, 0x00, 0x48, 0x00, 0x00] 5 300,
    .SCardTransmit h pci [0xFF, 0xB0, 0x00, 0x04, 0x10] 5 300,
    .SCardTransmit h pci [0xFF, 0xD6, 0x00, 0x04, 0x04, 0x00, 0x01, 0x02, 0x03] 9 300,
    .SCardDisconnect h K.SCARD_LEAVE_CARD,
    .SCardFreeMemory ctx reader,
    .SCardReleaseContext ctx ]

/-- The state after `n` successful calls of `main`. -/
structure Inv (K : Winscard) (n : Nat) (s : State) (pci : Pci) : Prop where
  ok : ∀ e ∈ s.events, e.status = K.SCARD_S_SUCCESS
  calls : s.calls
    = (fullTrace K s.applicationContext s.reader s.connectionHandler pci).take n
  reader : 2 ≤ n → s.reader.isSome = true
  header : 4 < n → selectPci K s.activeProtocol = some pci

/-- What every run of `main` looks like: its calls are the first `n` calls of
the full trace, all but the last succeeded, and the run ended with exit code 1
if the last call failed, with exit code 0 after all ten calls, and otherwise by
a read outside the reader block or by the `default` case of the protocol
switch. -/
def MainShape (K : Winscard) (o : Outcome) : Prop :=
  ∃ ctx reader h pci n, 1 ≤ n ∧ n ≤ 10 ∧
    o.state.calls = (fullTrace K ctx reader h pci).take n ∧
    (3 ≤ n → ∃ block, reader = some block) ∧
    (∀ e ∈ o.state.events.dropLast, e.status = K.SCARD_S_SUCCESS) ∧
    ∀ e, o.state.events.getLast? = some e →
      (e.status ≠ K.SCARD_S_SUCCESS → o.exitCode = some 1) ∧
      (e.status = K.SCARD_S_SUCCESS →
        (n = 10 ∧ o.exitCode = some 0 ∧ selectPci K o.state.activeProtocol = some pci) ∨
        (n < 10 ∧ (o.isUndefined = true ∨ selectPci K o.state.activeProtocol = none)))

/-- After a piece of `main`: either it returned in the state after `n`
successful calls, or the run is over and has the shape of a run of `main`. -/
def Post (K : Winscard) (n : Nat) (o : Outcome) : Prop :=
  (∃ s pci, o = .running s ∧ Inv K n s pci) ∨ (o.returned = false ∧ MainShape K o)

/-! ## Lemmas on strings, arrays and printing -/

theorem copyAt5_length (n : Nat) (dst src : List Nat) :
    (copyAt5 n dst src).length = dst.length := by
  unfold copyAt5
  generalize List.range n = l
  induction l generalizing dst with
  | nil => rfl
  | cons i l ih => rw [List.foldl_cons, ih, List.length_set]

theorem State.printf_nil (s : State) : s.printf [] = s := by
  simp [State.printf]

theorem State.printf_printf (s : State) (a b : List Printed) :
    (s.printf a).printf b = s.printf (a ++ b) := by
  simp [State.printf]

theorem cString_name (name rest : List Nat) (h : ∀ c ∈ name, c ≠ 0) :
    cString (name ++ 0 :: rest) = some name := by
  induction name with
  | nil => simp [cString]
  | cons c name ih =>
    have hc : c ≠ 0 := h c (List.mem_cons_self c name)
    have ih1 := ih fun d hd => h d (List.mem_cons_of_mem c hd)
    simp [cString, hc, ih1]

theorem multiString_length (names : List (List Nat)) :
    names.length < (multiString names).length := by
  induction names with
  | nil => simp [multiString]
  | cons name names ih => simp [multiString]; omega

/-- One more iteration than bytes left in the block always ends the loop of
`listReaders`. -/
theorem listReadersLoop_isSome (mem : List Nat) (fuel p : Nat) (s : State)
    (h : mem.length ≤ p + fuel) : (listReadersLoop mem (fuel + 1) p s).isSome = true := by
  induction fuel generalizing p s with
  | zero =>
    have hp : mem[p]? = none := List.getElem?_eq_none (by omega)
    simp [listReadersLoop, hp]
  | succ fuel ih =>
    unfold listReadersLoop
    cases hp : mem[p]? with
    | none => simp
    | some c =>
      by_cases hc : c = 0
      · simp [hc]
      · cases hn : cString (mem.drop p) with
        | none => simp [hc]
        | some name =>
          simp only [hc, if_false]
          exact ih _ _ (by omega)

/-- On a well-formed multi-string that starts at offset `pre.length` the loop
of `listReaders` prints the names in order and ends normally. -/
theorem listReadersLoop_multiString (names : List (List Nat)) (pre : List Nat) (fuel : Nat)
    (s : State) (hwf : ∀ name ∈ names, name ≠ [] ∧ ∀ c ∈ name, c ≠ 0)
    (hfuel : names.length < fuel) :
    listReadersLoop (pre ++ multiString names) fuel pre.length s
      = some (.running (s.printf (readersFound names))) := by
  induction names generalizing pre fuel s with
  | nil =>
    obtain ⟨fuel, rfl⟩ : ∃ f, fuel = f + 1 := ⟨fuel - 1, by simp at hfuel; omega⟩
    simp [listReadersLoop, multiString, readersFound, State.printf_nil]
  | cons name names ih =>
    obtain ⟨fuel, rfl⟩ : ∃ f, fuel = f + 1 := ⟨fuel - 1, by simp at hfuel; omega⟩
    obtain ⟨hne, hnz⟩ := hwf name (List.mem_cons_self name names)
    obtain ⟨c, tl, rfl⟩ : ∃ c tl, name = c :: tl := List.exists_cons_of_ne_nil hne
    have hc : c ≠ 0 := hnz c (List.mem_cons_self c tl)
    have hget : (pre ++ multiString ((c :: tl) :: names))[pre.length]? = some c := by
      rw [List.getElem?_append_right (le_refl _)]
      simp [multiString]
    have hdrop : (pre ++ multiString ((c :: tl) :: names)).drop pre.length
        = (c :: tl) ++ 0 :: multiString names := by
      simp [multiString]
    have hnext := ih (pre ++ ((c :: tl) ++ [0])) fuel
      (s.printf [.lit "Reader found: ", .str (c :: tl), .lit "\n"])
      (fun n hn => hwf n (List.mem_cons_of_mem _ hn)) (by simp at hfuel; omega)
    unfold listReadersLoop
    rw [hget]
    simp only [hc, if_false, hdrop, cString_name (c :: tl) (multiString names) hnz]
    have hmem : pre ++ multiString ((c :: tl) :: names)
        = pre ++ ((c :: tl) ++ [0]) ++ multiString names := by
      simp [multiString]
    have hlen : pre.length + ((c :: tl).length + 1) = (pre ++ ((c :: tl) ++ [0])).length := by
      simp
    rw [hmem, hlen, hnext, State.printf_printf]
    simp [readersFound]

/-! ## The shape of a run: lemmas -/

theorem Post.andThen {K : Winscard} {n m : Nat} {o : Outcome} {f : State → Outcome}
    (ho : Post K n o) (hf : ∀ s pci, Inv K n s pci → Post K m (f s)) :
    Post K m (o.andThen f) := by
  rcases ho with ⟨s, pci, rfl, hs⟩ | ⟨hret, hshape⟩
  · exact hf s pci hs
  · cases o with
    | running s => simp [Outcome.returned] at hret
    | exited c s => exact Or.inr ⟨hret, hshape⟩
    | undefined s => exact Or.inr ⟨hret, hshape⟩

/-- The shape of a run that ends right after the call that follows `n`
successful calls. -/
theorem MainShape.of_call {K : Winscard} {n : Nat} {s : State} {pci : Pci} (o : Outcome)
    (c : Call) (st : Int) (hI : Inv K n s pci) (hn : n < 10)
    (hev : o.state.events = s.events ++ [⟨c, st⟩])
    (hc : (fullTrace K s.applicationContext s.reader s.connectionHandler pci)[n]? = some c)
    (hfail : st ≠ K.SCARD_S_SUCCESS → o.exitCode = some 1)
    (hok : st = K.SCARD_S_SUCCESS → n + 1 < 10 ∧
      (o.isUndefined = true ∨ selectPci K o.state.activeProtocol = none)) :
    MainShape K o := by
  refine ⟨s.applicationContext, s.reader, s.connectionHandler, pci, n + 1, by omega, by omega,
    ?_, ?_, ?_, ?_⟩
  · have h1 : o.state.calls = s.calls ++ [c] := by simp [State.calls, hev]
    rw [h1, hI.calls, List.take_succ, hc]
    rfl
  · intro h3
    have := hI.reader (by omega)
    exact Option.isSome_iff_exists.mp this
  · rw [hev, List.dropLast_concat]
    exact hI.ok
  · intro e he
    rw [hev, List.getLast?_concat] at he
    cases he
    exact ⟨hfail, fun h => Or.inr (hok h)⟩

/-- Before the first `SCardTransmit` the header is not yet part of the trace. -/
theorem Inv.change_pci {K : Winscard} {n : Nat} {s : State} {pci : Pci} (hI : Inv K n s pci)
    (hn : n ≤ 4) (pci' : Pci) : Inv K n s pci' := by
  refine ⟨hI.ok, ?_, hI.reader, fun h => by omega⟩
  rw [hI.calls]
  interval_cases n <;> simp [fullTrace]

/-- The invariant after one more successful call. -/
theorem Inv.next {K : Winscard} {n : Nat} {s : State} {pci : Pci} (hI : Inv K n s pci)
    (t : State) (c : Call)
    (hev : t.events = s.events ++ [⟨c, K.SCARD_S_SUCCESS⟩])
    (hc : (fullTrace K t.applicationContext t.reader t.connectionHandler pci).take (n + 1)
      = (fullTrace K s.applicationContext s.reader s.connectionHandler pci).take n ++ [c])
    (hreader : 2 ≤ n + 1 → t.reader.isSome = true)
    (hheader : 4 < n + 1 → selectPci K t.activeProtocol = some pci) :
    Inv K (n + 1) t pci := by
  refine ⟨?_, ?_, hreader, hheader⟩
  · intro e he
    rw [hev, List.mem_append, List.mem_singleton] at he
    rcases he with he | rfl
    · exact hI.ok e he
    · rfl
  · rw [hc, ← hI.calls]
    simp [State.calls, hev]

theorem establishContext_post (K : Winscard) (rm : ResourceManager) (s : State)
    (hs : s.events = []) : Post K 1 (establishContext K rm s) := by
  obtain ⟨reply, hreply⟩ : ∃ r, rm.SCardEstablishContext
    (s.calls ++ [Call.SCardEstablishContext K.SCARD_SCOPE_SYSTEM]) = r := ⟨_, rfl⟩
  have hI : Inv K 0 s .SCARD_PCI_T0 :=
    ⟨by simp [hs], by simp [State.calls, hs], fun h => by omega, fun h => by omega⟩
  simp only [establishContext, hreply]
  split_ifs with hst
  · refine Or.inl ⟨_, _, rfl, hI.next _ (Call.SCardEstablishContext K.SCARD_SCOPE_SYSTEM)
      ?_ ?_ ?_ ?_⟩
    · simp [State.printf, State.record, State.setApplicationContext, hst]
    · simp [fullTrace]
    · intro h; omega
    · intro h; omega
  · exact Or.inr ⟨rfl, MainShape.of_call _ (Call.SCardEstablishContext K.SCARD_SCOPE_SYSTEM)
      reply.1 hI (by omega) (by simp [Outcome.state, State.printf, State.record])
      (by simp [fullTrace]) (fun _ => rfl) (fun h => absurd h hst)⟩

theorem listReadersLoop_state (mem : List Nat) (fuel p : Nat) (s : State) (o : Outcome)
    (h : listReadersLoop mem fuel p s = some o) :
    ∃ out, o = .running (s.printf out) ∨ o = .undefined (s.printf out) := by
  induction fuel generalizing p s with
  | zero => simp [listReadersLoop] at h
  | succ fuel ih =>
    unfold listReadersLoop at h
    split at h
    · exact ⟨[], Or.inr (by simp at h; simp [State.printf_nil, h])⟩
    · split_ifs at h
      · exact ⟨[], Or.inl (by simp at h; simp [State.printf_nil, h])⟩
      · split at h
        · exact ⟨[], Or.inr (by simp at h; simp [State.printf_nil, h])⟩
        · obtain ⟨out, hout⟩ := ih _ _ h
          rw [State.printf_printf] at hout
          exact ⟨_, hout⟩

theorem listReaders_post (K : Winscard) (rm : ResourceManager) (s : State) (pci : Pci)
    (hI : Inv K 1 s pci) : Post K 2 (listReaders K rm s) := by
  obtain ⟨reply, hreply⟩ : ∃ r, rm.SCardListReaders
    (s.calls ++ [Call.SCardListReaders s.applicationContext]) = r := ⟨_, rfl⟩
  simp only [listReaders, hreply]
  split_ifs with hst
  · have hI2 : ∀ out, Inv K 2 (((s.record (Call.SCardListReaders s.applicationContext)
        reply.1).setReader (some reply.2)).printf out) pci := by
      intro out
      refine hI.next _ (Call.SCardListReaders s.applicationContext) ?_ ?_ ?_ ?_
      · simp [State.printf, State.record, State.setReader, hst]
      · simp [fullTrace, State.printf, State.record, State.setReader]
      · intro _; rfl
      · intro h; omega
    obtain ⟨o, ho⟩ := Option.isSome_iff_exists.mp (listReadersLoop_isSome reply.2 reply.2.length
      0 ((s.record (Call.SCardListReaders s.applicationContext) reply.1).setReader
        (some reply.2)) (by omega))
    obtain ⟨out, rfl | rfl⟩ := listReadersLoop_state _ _ _ _ _ ho
    · rw [ho]
      exact Or.inl ⟨_, pci, rfl, hI2 out⟩
    · rw [ho]
      exact Or.inr ⟨rfl, MainShape.of_call _ (Call.SCardListReaders s.applicationContext)
        reply.1 hI (by omega)
        (by simp [Outcome.state, State.printf, State.record, State.setReader])
        (by simp [fullTrace]) (fun h => absurd hst h) (fun _ => ⟨by omega, Or.inl rfl⟩)⟩
  · exact Or.inr ⟨rfl, MainShape.of_call _ (Call.SCardListReaders s.applicationContext)
      reply.1 hI (by omega) (by simp [Outcome.state, State.printf, State.record])
      (by simp [fullTrace]) (fun _ => rfl) (fun h => absurd h hst)⟩

theorem connectToCard_post (K : Winscard) (rm : ResourceManager) (s : State) (pci : Pci)
    (hI : Inv K 2 s pci) : Post K 3 (connectToCard K rm s) := by
  obtain ⟨reply, hreply⟩ : ∃ r, rm.SCardConnect
    ((s.setActiveProtocol (2 ^ K.dwordBits - 1)).calls ++
      [Call.SCardConnect (s.setActiveProtocol (2 ^ K.dwordBits - 1)).applicationContext
        (s.setActiveProtocol (2 ^ K.dwordBits - 1)).reader K.SCARD_SHARE_SHARED
        (K.SCARD_PROTOCOL_T0 ||| K.SCARD_PROTOCOL_T1)]) = r := ⟨_, rfl⟩
  simp only [connectToCard, hreply]
  split_ifs with hst
  · refine Or.inl ⟨_, pci, rfl, hI.next _ (Call.SCardConnect s.applicationContext s.reader
      K.SCARD_SHARE_SHARED (K.SCARD_PROTOCOL_T0 ||| K.SCARD_PROTOCOL_T1)) ?_ ?_ ?_ ?_⟩
    · simp [State.printf, State.record, State.setActiveProtocol, State.setConnectionHandler,
        hst]
    · simp [fullTrace, State.printf, State.record, State.setActiveProtocol,
        State.setConnectionHandler]
    · intro _
      simpa [State.printf, State.record, State.setActiveProtocol, State.setConnectionHandler]
        using hI.reader (le_refl _)
    · intro h; omega
  · exact Or.inr ⟨rfl, MainShape.of_call _ (Call.SCardConnect s.applicationContext s.reader
      K.SCARD_SHARE_SHARED (K.SCARD_PROTOCOL_T0 ||| K.SCARD_PROTOCOL_T1)) reply.1 hI (by omega)
      (by simp [Outcome.state, State.printf, State.record, State.setActiveProtocol])
      (by simp [fullTrace]) (fun _ => rfl) (fun h => absurd h hst)⟩

theorem Inv.printf {K : Winscard} {n : Nat} {s : State} {pci : Pci} (hI : Inv K n s pci)
    (out : List Printed) : Inv K n (s.printf out) pci :=
  ⟨hI.ok, hI.calls, hI.reader, hI.header⟩

/-- The shape of a run that ends in the `default` case of the protocol switch. -/
theorem MainShape.of_default {K : Winscard} {s : State} {pci : Pci} (o : Outcome)
    (hI : Inv K 4 s pci) (hev : o.state.events = s.events)
    (hsel : selectPci K o.state.activeProtocol = none) : MainShape K o := by
  refine ⟨s.applicationContext, s.reader, s.connectionHandler, pci, 4, by omega, by omega,
    ?_, ?_, ?_, ?_⟩
  · rw [← hI.calls]
    simp [State.calls, hev]
  · intro _
    exact Option.isSome_iff_exists.mp (hI.reader (by omega))
  · intro e he
    rw [hev] at he
    exact hI.ok e (List.mem_of_mem_dropLast he)
  · intro e he
    rw [hev] at he
    have hmem : e ∈ s.events := List.mem_of_getLast?_eq_some he
    exact ⟨fun h => absurd (hI.ok e hmem) h, fun _ => Or.inr ⟨by omega, Or.inr hsel⟩⟩

theorem getCardInformation_post (K : Winscard) (rm : ResourceManager) (s : State) (pci : Pci)
    (hI : Inv K 3 s pci) : Post K 4 (getCardInformation K rm s) := by
  obtain ⟨reply, hreply⟩ : ∃ r, rm.SCardStatus
    (s.calls ++ [Call.SCardStatus s.connectionHandler K.MAX_READERNAME K.MAX_ATR_SIZE]) = r :=
    ⟨_, rfl⟩
  have hI4 : reply.status = K.SCARD_S_SUCCESS → ∀ out, Inv K 4 ((s.record
      (Call.SCardStatus s.connectionHandler K.MAX_READERNAME K.MAX_ATR_SIZE)
      reply.status).printf out) pci := by
    intro hst out
    refine hI.next _ (Call.SCardStatus s.connectionHandler K.MAX_READERNAME K.MAX_ATR_SIZE)
      ?_ ?_ ?_ ?_
    · simp [State.printf, State.record, hst]
    · simp [fullTrace, State.printf, State.record]
    · intro _
      simpa [State.printf, State.record] using hI.reader (by omega)
    · intro h; omega
  have hshape : ∀ o : Outcome, o.state.events = s.events ++
      [⟨Call.SCardStatus s.connectionHandler K.MAX_READERNAME K.MAX_ATR_SIZE, reply.status⟩] →
      (reply.status ≠ K.SCARD_S_SUCCESS → o.exitCode = some 1) →
      (reply.status = K.SCARD_S_SUCCESS → o.isUndefined = true) → MainShape K o := by
    intro o hev hfail hok
    exact MainShape.of_call o _ reply.status hI (by omega) hev (by simp [fullTrace]) hfail
      (fun h => ⟨by omega, Or.inl (hok h)⟩)
  simp only [getCardInformation, hreply]
  split_ifs with hst
  · simp only [State.printf_printf]
    exact Or.inl ⟨_, pci, rfl, hI4 hst _⟩
  · exact Or.inr ⟨rfl, hshape _ (by simp [Outcome.state, State.printf, State.record])
      (fun _ => rfl) (fun h => absurd h hst)⟩

theorem sendCommand_post (K : Winscard) (rm : ResourceManager) (command : List Nat)
    (commandLength n : Nat) (s : State) (pci : Pci) (hI : Inv K n s pci) (hn4 : 4 ≤ n)
    (hn6 : n ≤ 6)
    (hc : ∀ p, (fullTrace K s.applicationContext s.reader s.connectionHandler p)[n]?
      = some (Call.SCardTransmit s.connectionHandler p command commandLength 300)) :
    Post K (n + 1) (sendCommand K rm command commandLength s) := by
  cases hsel : selectPci K s.activeProtocol with
  | none =>
    have h4 : n = 4 := by
      by_contra hne
      have := hI.header (by omega)
      rw [hsel] at this
      cases this
    subst h4
    simp only [sendCommand, hsel]
    exact Or.inr ⟨rfl, MainShape.of_default _ hI (by simp [Outcome.state, State.printf])
      (by simpa [Outcome.state, State.printf] using hsel)⟩
  | some p =>
    have hIp : Inv K n s p := by
      by_cases h4 : n ≤ 4
      · exact hI.change_pci h4 p
      · have := hI.header (by omega)
        rw [hsel] at this
        cases this
        exact hI
    obtain ⟨reply, hreply⟩ : ∃ r, rm.SCardTransmit
      (s.calls ++ [Call.SCardTransmit s.connectionHandler p command commandLength 300]) = r :=
      ⟨_, rfl⟩
    have hshape : ∀ o : Outcome, o.state.events = s.events ++
        [⟨Call.SCardTransmit s.connectionHandler p command commandLength 300, reply.status⟩] →
        (reply.status ≠ K.SCARD_S_SUCCESS → o.exitCode = some 1) →
        (reply.status = K.SCARD_S_SUCCESS → o.isUndefined = true) → MainShape K o := by
      intro o hev hfail hok
      exact MainShape.of_call o _ reply.status hIp (by omega) hev (hc p) hfail
        (fun h => ⟨by omega, Or.inl (hok h)⟩)
    simp only [sendCommand, hsel, hreply]
    split_ifs with hst
    · simp only [State.printf_printf]
      refine Or.inl ⟨_, p, rfl, hIp.next _
        (Call.SCardTransmit s.connectionHandler p command commandLength 300) ?_ ?_ ?_ ?_⟩
      · simp [State.printf, State.record, hst]
      · simp [State.printf, State.record, List.take_succ, hc p]
      · intro _
        simpa [State.printf, State.record] using hIp.reader (by omega)
      · intro _
        simpa [State.printf, State.record] using hsel
    · exact Or.inr ⟨rfl, hshape _ (by simp [Outcome.state, State.printf, State.record])
        (fun _ => rfl) (fun h => absurd h hst)⟩

theorem mifareUltralight_post (K : Winscard) (rm : ResourceManager) (s : State) (pci : Pci)
    (hI : Inv K 5 s pci) : Post K 7 (mifareUltralight K rm s) := by
  unfold mifareUltralight mifareUltralightWith
  refine Post.andThen (n := 6) ?_ ?_
  · exact sendCommand_post K rm _ _ 5 _ pci (hI.printf _) (by omega) (by omega)
      (fun p => by simp [fullTrace, mifareUltralight_readCommand, arrayInit, sizeofShort])
  · intro t p ht
    exact sendCommand_post K rm _ _ 6 t p ht (by omega) (by omega)
      (fun p => by
        simp [fullTrace, mifareUltralight_writeCommand, arrayInit, uint8Array, copyAt5,
          sizeofShort, List.range_succ])

theorem disconnectFromCard_post (K : Winscard) (rm : ResourceManager) (s : State) (pci : Pci)
    (hI : Inv K 7 s pci) : Post K 8 (disconnectFromCard K rm s) := by
  obtain ⟨status, hreply⟩ : ∃ r, rm.SCardDisconnect
    (s.calls ++ [Call.SCardDisconnect s.connectionHandler K.SCARD_LEAVE_CARD]) = r := ⟨_, rfl⟩
  simp only [disconnectFromCard, hreply]
  split_ifs with hst
  · refine Or.inl ⟨_, pci, rfl, hI.next _
      (Call.SCardDisconnect s.connectionHandler K.SCARD_LEAVE_CARD) ?_ ?_ ?_ ?_⟩
    · simp [State.printf, State.record, hst]
    · simp [fullTrace, State.printf, State.record]
    · intro _
      simpa [State.printf, State.record] using hI.reader (by omega)
    · intro _
      simpa [State.printf, State.record] using hI.header (by omega)
  · exact Or.inr ⟨rfl, MainShape.of_call _
      (Call.SCardDisconnect s.connectionHandler K.SCARD_LEAVE_CARD) status hI (by omega)
      (by simp [Outcome.state, State.printf, State.record])
      (by simp [fullTrace]) (fun _ => rfl) (fun h => absurd h hst)⟩

theorem freeListReader_post (K : Winscard) (rm : ResourceManager) (s : State) (pci : Pci)
    (hI : Inv K 8 s pci) : Post K 9 (freeListReader K rm s) := by
  obtain ⟨status, hreply⟩ : ∃ r, rm.SCardFreeMemory
    (s.calls ++ [Call.SCardFreeMemory s.applicationContext s.reader]) = r := ⟨_, rfl⟩
  simp only [freeListReader, hreply]
  split_ifs with hst
  · refine Or.inl ⟨_, pci, rfl, hI.next _
      (Call.SCardFreeMemory s.applicationContext s.reader) ?_ ?_ ?_ ?_⟩
    · simp [State.printf, State.record, hst]
    · simp [fullTrace, State.printf, State.record]
    · intro _
      simpa [State.printf, State.record] using hI.reader (by omega)
    · intro _
      simpa [State.printf, State.record] using hI.header (by omega)
  · exact Or.inr ⟨rfl, MainShape.of_call _
      (Call.SCardFreeMemory s.applicationContext s.reader) status hI (by omega)
      (by simp [Outcome.state, State.printf, State.record])
      (by simp [fullTrace]) (fun _ => rfl) (fun h => absurd h hst)⟩

theorem releaseContext_post (K : Winscard) (rm : ResourceManager) (s : State) (pci : Pci)
    (hI : Inv K 9 s pci) : Post K 10 (releaseContext K rm s) := by
  obtain ⟨status, hreply⟩ : ∃ r, rm.SCardReleaseContext
    (s.calls ++ [Call.SCardReleaseContext s.applicationContext]) = r := ⟨_, rfl⟩
  simp only [releaseContext, hreply]
  split_ifs with hst
  · refine Or.inl ⟨_, pci, rfl, hI.next _
      (Call.SCardReleaseContext s.applicationContext) ?_ ?_ ?_ ?_⟩
    · simp [State.printf, State.record, hst]
    · simp [fullTrace, State.printf, State.record]
    · intro _
      simpa [State.printf, State.record] using hI.reader (by omega)
    · intro _
      simpa [State.printf, State.record] using hI.header (by omega)
  · exact Or.inr ⟨rfl, MainShape.of_call _
      (Call.SCardReleaseContext s.applicationContext) status hI (by omega)
      (by simp [Outcome.state, State.printf, State.record])
      (by simp [fullTrace]) (fun _ => rfl) (fun h => absurd h hst)⟩

/-- After the ten calls `return 0` ends the run. -/
theorem MainShape.of_post {K : Winscard} {o : Outcome} (h : Post K 10 o) :
    MainShape K (o.andThen fun s => .exited 0 s) := by
  rcases h with ⟨s, pci, rfl, hI⟩ | ⟨hret, hshape⟩
  · refine ⟨s.applicationContext, s.reader, s.connectionHandler, pci, 10, by omega, by omega,
      hI.calls, fun _ => Option.isSome_iff_exists.mp (hI.reader (by omega)),
      fun e he => hI.ok e (List.mem_of_mem_dropLast he), ?_⟩
    intro e he
    have hmem : e ∈ s.events := List.mem_of_getLast?_eq_some he
    exact ⟨fun h => absurd (hI.ok e hmem) h, fun _ => Or.inl ⟨rfl, rfl, hI.header (by omega)⟩⟩
  · cases o with
    | running s => simp [Outcome.returned] at hret
    | exited c s => exact hshape
    | undefined s => exact hshape

/-- Every run of `main` has the shape described by `MainShape`. -/
theorem main_shape (K : Winscard) (rm : ResourceManager) : MainShape K (main K rm) := by
  unfold main
  refine MainShape.of_post (Post.andThen (Post.andThen (Post.andThen (Post.andThen
    (Post.andThen (Post.andThen (Post.andThen (Post.andThen
      (establishContext_post K rm State.initial rfl)
      (listReaders_post K rm)) (connectToCard_post K rm)) (getCardInformation_post K rm))
    ?_) (mifareUltralight_post K rm)) (disconnectFromCard_post K rm))
    (freeListReader_post K rm)) (releaseContext_post K rm))
  intro s pci hI
  exact sendCommand_post K rm _ _ 4 _ pci (hI.printf _) (by omega) (by omega)
    (fun p => by simp [fullTrace, firmwareCommand, arrayInit, sizeofShort])

/-- The last event of a run of `main`, with the shape of its calls. -/
theorem main_last_event (K : Winscard) (rm : ResourceManager) :
    ∃ ctx reader h pci n e, 1 ≤ n ∧ n ≤ 10 ∧
      (main K rm).state.calls = (fullTrace K ctx reader h pci).take n ∧
      (3 ≤ n → ∃ block, reader = some block) ∧
      (main K rm).state.events.getLast? = some e ∧
      (fullTrace K ctx reader h pci)[n - 1]? = some e.call ∧
      (∀ e' ∈ (main K rm).state.events, e'.status ≠ K.SCARD_S_SUCCESS → e' = e) ∧
      (e.status ≠ K.SCARD_S_SUCCESS → (main K rm).exitCode = some 1) ∧
      (e.status = K.SCARD_S_SUCCESS →
        (n = 10 ∧ (main K rm).exitCode = some 0 ∧
          selectPci K (main K rm).state.activeProtocol = some pci) ∨
        (n < 10 ∧ ((main K rm).isUndefined = true ∨
          selectPci K (main K rm).state.activeProtocol = none))) := by
  obtain ⟨ctx, reader, h, pci, n, hn1, hn10, hcalls, hreader, hdrop, hlast⟩ := main_shape K rm
  have hlen : (main K rm).state.events.length = n := by
    have := congrArg List.length hcalls
    simpa [State.calls, fullTrace, hn10] using this
  have hne : (main K rm).state.events ≠ [] := by
    intro h0
    rw [h0] at hlen
    simp at hlen
    omega
  obtain ⟨e, he⟩ : ∃ e, (main K rm).state.events.getLast? = some e :=
    ⟨_, List.getLast?_eq_getLast _ hne⟩
  have hsplit : (main K rm).state.events = (main K rm).state.events.dropLast ++ [e] :=
    (List.dropLast_append_getLast? e he).symm
  refine ⟨ctx, reader, h, pci, n, e, hn1, hn10, hcalls, hreader, he, ?_, ?_, (hlast e he).1,
    (hlast e he).2⟩
  · have h1 : ((main K rm).state.calls).getLast? = some e.call := by
      simp [State.calls, List.getLast?_map, he]
    have hlt : ((fullTrace K ctx reader h pci).take n).length = n := by
      simp [fullTrace, hn10]
    rw [hcalls, List.getLast?_eq_getElem?, hlt, List.getElem?_take_of_lt (by omega)] at h1
    exact h1
  · intro e' he' hfail
    rw [hsplit, List.mem_append, List.mem_singleton] at he'
    rcases he' with he' | rfl
    · exact absurd (hdrop e' he') hfail
    · rfl

/-! ## The log of calls only grows -/

theorem Outcome.andThen_calls (o : Outcome) (f : State → Outcome)
    (hf : ∀ t, ∃ l, (f t).state.calls = t.calls ++ l) :
    ∃ l, (o.andThen f).state.calls = o.state.calls ++ l := by
  cases o with
  | running s => exact hf s
  | exited c s => exact ⟨[], by simp [Outcome.andThen]⟩
  | undefined s => exact ⟨[], by simp [Outcome.andThen]⟩

theorem getCardInformation_calls (K : Winscard) (rm : ResourceManager) (s : State) :
    ∃ l, (getCardInformation K rm s).state.calls = s.calls ++ l := by
  refine ⟨[Call.SCardStatus s.connectionHandler K.MAX_READERNAME K.MAX_ATR_SIZE], ?_⟩
  unfold getCardInformation
  simp only []
  split_ifs <;> simp [Outcome.state, State.calls, State.printf, State.record]

theorem sendCommand_calls (K : Winscard) (rm : ResourceManager) (command : List Nat)
    (commandLength : Nat) (s : State) :
    ∃ l, (sendCommand K rm command commandLength s).state.calls = s.calls ++ l := by
  unfold sendCommand
  split
  · exact ⟨[], by simp [Outcome.state, State.calls, State.printf]⟩
  · rename_i pci _
    refine ⟨[Call.SCardTransmit s.connectionHandler pci command commandLength 300], ?_⟩
    simp only []
    split_ifs <;> simp [Outcome.state, State.calls, State.printf, State.record]

theorem mifareUltralight_calls (K : Winscard) (rm : ResourceManager) (s : State) :
    ∃ l, (mifareUltralight K rm s).state.calls = s.calls ++ l := by
  unfold mifareUltralight mifareUltralightWith
  obtain ⟨l2, h2⟩ := Outcome.andThen_calls
    (sendCommand K rm (mifareUltralight_readCommand 4)
      (sizeofShort (mifareUltralight_readCommand 4))
      (s.printf [.lit "### MIFARE Ultralight ###\n"]))
    (fun s2 => sendCommand K rm (mifareUltralight_writeCommand 4 [0, 1, 2, 3])
      (sizeofShort (mifareUltralight_writeCommand 4 [0, 1, 2, 3])) s2)
    (fun t => sendCommand_calls K rm _ _ t)
  obtain ⟨l1, h1⟩ := sendCommand_calls K rm (mifareUltralight_readCommand 4)
    (sizeofShort (mifareUltralight_readCommand 4))
    (s.printf [.lit "### MIFARE Ultralight ###\n"])
  refine ⟨l1 ++ l2, ?_⟩
  simp only [] at h2 ⊢
  rw [h2, h1]
  simp [State.calls, State.printf]

theorem disconnectFromCard_calls (K : Winscard) (rm : ResourceManager) (s : State) :
    ∃ l, (disconnectFromCard K rm s).state.calls = s.calls ++ l := by
  refine ⟨[Call.SCardDisconnect s.connectionHandler K.SCARD_LEAVE_CARD], ?_⟩
  unfold disconnectFromCard
  simp only []
  split_ifs <;> simp [Outcome.state, State.calls, State.printf, State.record]

theorem freeListReader_calls (K : Winscard) (rm : ResourceManager) (s : State) :
    ∃ l, (freeListReader K rm s).state.calls = s.calls ++ l := by
  refine ⟨[Call.SCardFreeMemory s.applicationContext s.reader], ?_⟩
  unfold freeListReader
  simp only []
  split_ifs <;> simp [Outcome.state, State.calls, State.printf, State.record]

theorem releaseContext_calls (K : Winscard) (rm : ResourceManager) (s : State) :
    ∃ l, (releaseContext K rm s).state.calls = s.calls ++ l := by
  refine ⟨[Call.SCardReleaseContext s.applicationContext], ?_⟩
  unfold releaseContext
  simp only []
  split_ifs <;> simp [Outcome.state, State.calls, State.printf, State.record]

theorem connectToCard_calls (K : Winscard) (rm : ResourceManager) (s : State) :
    (connectToCard K rm s).state.calls = s.calls ++
      [Call.SCardConnect s.applicationContext s.reader K.SCARD_SHARE_SHARED
        (K.SCARD_PROTOCOL_T0 ||| K.SCARD_PROTOCOL_T1)] := by
  unfold connectToCard
  simp only []
  split_ifs <;>
    simp [Outcome.state, State.calls, State.printf, State.record, State.setActiveProtocol,
      State.setConnectionHandler]

/-- What `main` does once `listReaders` has returned in the state `s`: the
calls made are those of `s`, then `SCardConnect`, then possibly more. -/
theorem main_rest_calls (K : Winscard) (rm : ResourceManager) (s : State) :
    ∃ l, (((((((((connectToCard K rm s).andThen
      (getCardInformation K rm)).andThen fun s =>
      sendCommand K rm firmwareCommand (sizeofShort firmwareCommand)
        (s.printf [.lit "Firmware command:\n"])).andThen
      (mifareUltralight K rm)).andThen
      (disconnectFromCard K rm)).andThen
      (freeListReader K rm)).andThen
      (releaseContext K rm)).andThen fun s => .exited 0 s).state.calls) = s.calls ++
      [Call.SCardConnect s.applicationContext s.reader K.SCARD_SHARE_SHARED
        (K.SCARD_PROTOCOL_T0 ||| K.SCARD_PROTOCOL_T1)] ++ l := by
  obtain ⟨l7, h7⟩ := Outcome.andThen_calls (((((((connectToCard K rm s).andThen
      (getCardInformation K rm)).andThen fun s =>
      sendCommand K rm firmwareCommand (sizeofShort firmwareCommand)
        (s.printf [.lit "Firmware command:\n"])).andThen
      (mifareUltralight K rm)).andThen
      (disconnectFromCard K rm)).andThen
      (freeListReader K rm)).andThen
      (releaseContext K rm)) (fun s => .exited 0 s) (fun t => ⟨[], by simp [Outcome.state]⟩)
  obtain ⟨l6, h6⟩ := Outcome.andThen_calls ((((((connectToCard K rm s).andThen
      (getCardInformation K rm)).andThen fun s =>
      sendCommand K rm firmwareCommand (sizeofShort firmwareCommand)
        (s.printf [.lit "Firmware command:\n"])).andThen
      (mifareUltralight K rm)).andThen
      (disconnectFromCard K rm)).andThen
      (freeListReader K rm)) (releaseContext K rm) (releaseContext_calls K rm)
  obtain ⟨l5, h5⟩ := Outcome.andThen_calls (((((connectToCard K rm s).andThen
      (getCardInformation K rm)).andThen fun s =>
      sendCommand K rm firmwareCommand (sizeofShort firmwareCommand)
        (s.printf [.lit "Firmware command:\n"])).andThen
      (mifareUltralight K rm)).andThen
      (disconnectFromCard K rm)) (freeListReader K rm) (freeListReader_calls K rm)
  obtain ⟨l4, h4⟩ := Outcome.andThen_calls ((((connectToCard K rm s).andThen
      (getCardInformation K rm)).andThen fun s =>
      sendCommand K rm firmwareCommand (sizeofShort firmwareCommand)
        (s.printf [.lit "Firmware command:\n"])).andThen
      (mifareUltralight K rm)) (disconnectFromCard K rm) (disconnectFromCard_calls K rm)
  obtain ⟨l3, h3⟩ := Outcome.andThen_calls (((connectToCard K rm s).andThen
      (getCardInformation K rm)).andThen fun s =>
      sendCommand K rm firmwareCommand (sizeofShort firmwareCommand)
        (s.printf [.lit "Firmware command:\n"])) (mifareUltralight K rm)
      (mifareUltralight_calls K rm)
  obtain ⟨l2, h2⟩ := Outcome.andThen_calls ((connectToCard K rm s).andThen
      (getCardInformation K rm)) (fun s =>
      sendCommand K rm firmwareCommand (sizeofShort firmwareCommand)
        (s.printf [.lit "Firmware command:\n"]))
      (fun t => sendCommand_calls K rm _ _ (t.printf [.lit "Firmware command:\n"]))
  obtain ⟨l1, h1⟩ := Outcome.andThen_calls (connectToCard K rm s)
      (getCardInformation K rm) (getCardInformation_calls K rm)
  refine ⟨l1 ++ l2 ++ l3 ++ l4 ++ l5 ++ l6 ++ l7, ?_⟩
  rw [h7, h6, h5, h4, h3, h2, h1, connectToCard_calls]
  simp

/-! ## `listReaders` on an error and on an empty list -/

theorem listReaders_of_error (K : Winscard) (rm : ResourceManager) (s : State)
    (h : (rm.SCardListReaders (s.calls ++ [Call.SCardListReaders s.applicationContext])).1
      ≠ K.SCARD_S_SUCCESS) :
    listReaders K rm s = .exited 1
      ((s.record (Call.SCardListReaders s.applicationContext)
        (rm.SCardListReaders (s.calls ++ [Call.SCardListReaders s.applicationContext])).1).printf
        [.lit "List reader error: ",
          .stringify_error
            (rm.SCardListReaders (s.calls ++ [Call.SCardListReaders s.applicationContext])).1,
          .lit "\n"]) := by
  unfold listReaders
  simp only []
  rw [if_neg h]

theorem listReaders_of_empty (K : Winscard) (rm : ResourceManager) (s : State)
    (h : (rm.SCardListReaders (s.calls ++ [Call.SCardListReaders s.applicationContext])).1
      = K.SCARD_S_SUCCESS)
    (hempty : (rm.SCardListReaders
      (s.calls ++ [Call.SCardListReaders s.applicationContext])).2.head? = some 0) :
    listReaders K rm s = .running
      ((s.record (Call.SCardListReaders s.applicationContext)
        (rm.SCardListReaders (s.calls ++ [Call.SCardListReaders s.applicationContext])).1).setReader
        (some (rm.SCardListReaders
          (s.calls ++ [Call.SCardListReaders s.applicationContext])).2)) := by
  obtain ⟨reply, hreply⟩ : ∃ r, rm.SCardListReaders
    (s.calls ++ [Call.SCardListReaders s.applicationContext]) = r := ⟨_, rfl⟩
  rw [hreply] at h hempty ⊢
  obtain ⟨tl, htl⟩ : ∃ tl, reply.2 = 0 :: tl := by
    cases hr : reply.2 with
    | nil => rw [hr] at hempty; simp at hempty
    | cons c tl => rw [hr] at hempty; simp at hempty; exact ⟨tl, by rw [hempty]⟩
  simp only [listReaders, hreply]
  rw [if_pos h, htl]
  simp [listReadersLoop]

/-- C1: for every value of `activeProtocol`, `sendCommand` passes `SCARD_PCI_T0`
to `SCardTransmit` when the protocol is T0 and `SCARD_PCI_T1` when it is T1;
for every other value it prints "Protocol not found" and exits with status 1,
the log of external calls unchanged. -/
theorem sendCommand_selects_header (K : Winscard) (rm : ResourceManager) (command : List Nat)
    (commandLength : Nat) (s : State)
    (hK : K.SCARD_PROTOCOL_T0 ≠ K.SCARD_PROTOCOL_T1) :
    (s.activeProtocol = K.SCARD_PROTOCOL_T0 →
      (sendCommand K rm command commandLength s).state.calls = s.calls ++
        [Call.SCardTransmit s.connectionHandler .SCARD_PCI_T0 command commandLength 300]) ∧
    (s.activeProtocol = K.SCARD_PROTOCOL_T1 →
      (sendCommand K rm command commandLength s).state.calls = s.calls ++
        [Call.SCardTransmit s.connectionHandler .SCARD_PCI_T1 command commandLength 300]) ∧
    (s.activeProtocol ≠ K.SCARD_PROTOCOL_T0 → s.activeProtocol ≠ K.SCARD_PROTOCOL_T1 →
      sendCommand K rm command commandLength s
          = .exited 1 (s.printf [.lit "Protocol not found\n"]) ∧
        (sendCommand K rm command commandLength s).state.calls = s.calls) := by
  refine ⟨fun h0 => ?_, fun h1 => ?_, fun h0 h1 => ?_⟩
  · have hsel : selectPci K s.activeProtocol = some .SCARD_PCI_T0 := by simp [selectPci, h0]
    simp only [sendCommand, hsel]
    split_ifs <;> simp [Outcome.state, State.calls, State.record, State.printf]
  · have hsel : selectPci K s.activeProtocol = some .SCARD_PCI_T1 := by
      simp [selectPci, h1, Ne.symm hK]
    simp only [sendCommand, hsel]
    split_ifs <;> simp [Outcome.state, State.calls, State.record, State.printf]
  · have hsel : selectPci K s.activeProtocol = none := by simp [selectPci, h0, h1]
    simp [sendCommand, hsel, Outcome.state, State.calls, State.printf]

/-- Witness of C1 on the value -1 that `connectToCard` stores. -/
theorem sendCommand_selects_header_witness :
    pcsclite.SCARD_PROTOCOL_T0 ≠ pcsclite.SCARD_PROTOCOL_T1 ∧
    beforeConnect.activeProtocol = 2 ^ pcsclite.dwordBits - 1 ∧
    sendCommand pcsclite okManager firmwareCommand 5 beforeConnect
      = .exited 1 (beforeConnect.printf [.lit "Protocol not found\n"]) ∧
    (sendCommand pcsclite okManager firmwareCommand 5 beforeConnect).state.calls
      = beforeConnect.calls :=
  ⟨by decide, by decide,
    (sendCommand_selects_header pcsclite okManager firmwareCommand 5 beforeConnect
      (by decide)).2.2 (by decide) (by decide)⟩

/-- C2, as stated, fails: when `SCardStatus` fails after a successful
`SCardConnect`, the run ends with exit code 1 after four calls, none of them
`SCardReleaseContext` or `SCardDisconnect`. -/
theorem main_cleanup_counterexample :
    (main pcsclite failStatusManager).state.events.map
        (fun e => (e.call.kind, decide (e.status = pcsclite.SCARD_S_SUCCESS)))
      = [(.establishContext, true), (.listReaders, true), (.connect, true),
          (.status, false)] ∧
    (main pcsclite failStatusManager).exitCode = some 1 ∧
    (main pcsclite failStatusManager).callCount .releaseContext = 0 ∧
    (main pcsclite failStatusManager).callCount .disconnect = 0 := by
  decide

/-- C2, amended: in every run of `main`, a call other than
`SCardEstablishContext` and `SCardReleaseContext` that fails is the last call;
the process exits with code 1, `SCardReleaseContext` is not called, and
`SCardDisconnect` is called once when the failing call is `SCardDisconnect`
itself or `SCardFreeMemory` and not at all otherwise. -/
theorem main_failure_trace (K : Winscard) (rm : ResourceManager) (e : Event)
    (he : e ∈ (main K rm).state.events) (hfail : e.status ≠ K.SCARD_S_SUCCESS)
    (hE : e.call.kind ≠ .establishContext) (hR : e.call.kind ≠ .releaseContext) :
    (main K rm).exitCode = some 1 ∧
    (main K rm).state.events.getLast? = some e ∧
    (main K rm).callCount .releaseContext = 0 ∧
    (main K rm).callCount .disconnect
      = if e.call.kind = .disconnect ∨ e.call.kind = .freeMemory then 1 else 0 := by
  obtain ⟨ctx, reader, h, pci, n, e', hn1, hn10, hcalls, _, hlast, hnth, huniq, hexit, _⟩ :=
    main_last_event K rm
  obtain rfl : e = e' := huniq e he hfail
  refine ⟨hexit hfail, hlast, ?_, ?_⟩ <;>
    · unfold Outcome.callCount
      rw [hcalls]
      interval_cases n <;> simp [fullTrace] at hnth <;>
        simp [← hnth, fullTrace, Call.kind] at hE hR ⊢

/-- Witness of the amended C2 on a failing `SCardStatus`. -/
theorem main_failure_trace_witness :
    (⟨Call.SCardStatus 9 128 33, 1⟩ : Event) ∈ (main pcsclite failStatusManager).state.events ∧
    (main pcsclite failStatusManager).exitCode = some 1 ∧
    (main pcsclite failStatusManager).state.events.getLast?
      = some ⟨Call.SCardStatus 9 128 33, 1⟩ ∧
    (main pcsclite failStatusManager).callCount .releaseContext = 0 ∧
    (main pcsclite failStatusManager).callCount .disconnect
      = if (Call.SCardStatus 9 128 33).kind = .disconnect ∨
          (Call.SCardStatus 9 128 33).kind = .freeMemory then 1 else 0 :=
  ⟨by decide,
    main_failure_trace pcsclite failStatusManager ⟨Call.SCardStatus 9 128 33, 1⟩ (by decide)
      (by decide) (by decide) (by decide)⟩

/-- C4: for every page byte and every array of four data bytes, the Ultralight
write command has 9 bytes, starts with `FF D6 00 page 04`, and its last four
bytes are the data in order. -/
theorem ultralight_write_command (page : Nat) (data : List Nat) (hpage : page < 256)
    (hlen : data.length = 4) (hbytes : ∀ b ∈ data, b < 256) :
    (mifareUltralight_writeCommand page data).length = 9 ∧
    (mifareUltralight_writeCommand page data).take 5 = [0xFF, 0xD6, 0x00, page, 0x04] ∧
    (mifareUltralight_writeCommand page data).drop
      ((mifareUltralight_writeCommand page data).length - 4) = data := by
  match data, hlen, hbytes with
  | [a, b, c, d], _, hbytes =>
    simp at hbytes
    obtain ⟨ha, hb, hc, hd⟩ := hbytes
    simp [mifareUltralight_writeCommand, copyAt5, arrayInit, uint8Array, List.range_succ,
      Nat.mod_eq_of_lt, *]

/-- Witness of C4 on the page and data of the source. -/
theorem ultralight_write_command_witness :
    mifareUltralight_writeCommand 4 [0, 1, 2, 3] = [0xFF, 0xD6, 0x00, 4, 0x04, 0, 1, 2, 3] ∧
    (mifareUltralight_writeCommand 4 [0, 1, 2, 3]).drop
      ((mifareUltralight_writeCommand 4 [0, 1, 2, 3]).length - 4) = [0, 1, 2, 3] :=
  ⟨by decide,
    (ultralight_write_command 4 [0, 1, 2, 3] (by decide) (by decide) (by decide)).2.2⟩

/-- C5: for every block byte and every array of sixteen data bytes, the Classic
write command has 21 bytes, starts with `FF D6 00 block 10`, and its last
sixteen bytes are the data in order. -/
theorem classic_write_command (block : Nat) (data : List Nat) (hblock : block < 256)
    (hlen : data.length = 16) (hbytes : ∀ b ∈ data, b < 256) :
    (mifareClassic_writeCommand block data).length = 21 ∧
    (mifareClassic_writeCommand block data).take 5 = [0xFF, 0xD6, 0x00, block, 0x10] ∧
    (mifareClassic_writeCommand block data).drop
      ((mifareClassic_writeCommand block data).length - 16) = data := by
  match data, hlen, hbytes with
  | [a0, a1, a2, a3, a4, a5, a6, a7, a8, a9, a10, a11, a12, a13, a14, a15], _, hbytes =>
    simp at hbytes
    obtain ⟨h0, h1, h2, h3, h4, h5, h6, h7, h8, h9, h10, h11, h12, h13, h14, h15⟩ := hbytes
    simp [mifareClassic_writeCommand, copyAt5, arrayInit, uint8Array, List.range_succ,
      Nat.mod_eq_of_lt, *]

/-- Witness of C5 on the block and data of the source. -/
theorem classic_write_command_witness :
    (mifareClassic_writeCommand 4 (List.range 16)).length = 21 ∧
    (mifareClassic_writeCommand 4 (List.range 16)).take 5 = [0xFF, 0xD6, 0x00, 4, 0x10] ∧
    (mifareClassic_writeCommand 4 (List.range 16)).drop
      ((mifareClassic_writeCommand 4 (List.range 16)).length - 16) = List.range 16 :=
  classic_write_command 4 (List.range 16) (by decide) (by decide) (by decide)

/-- C6, as stated, fails: for `blockCount = 1` the length byte of the Ultralight
read command is `0x10`, not `1 * 4`. -/
theorem ultralight_read_command_counterexample :
    (4 < 256 ∧ 1 ≤ 1 ∧ 1 ≤ 4) ∧
    (mifareUltralight_readCommand 4).getD 4 0 = 0x10 ∧
    (mifareUltralight_readCommand 4).getD 4 0 ≠ 1 * 4 := by
  decide

/-- C6, amended: for every page byte the Ultralight read command is the five
bytes `FF B0 00 page 10`: its P2 byte is the page and its length byte is always
`0x10`, four blocks of four bytes. -/
theorem ultralight_read_command (page : Nat) (hpage : page < 256) :
    mifareUltralight_readCommand page = [0xFF, 0xB0, 0x00, page, 0x10] ∧
    (mifareUltralight_readCommand page).length = 5 ∧
    (mifareUltralight_readCommand page).getD 3 0 = page ∧
    (mifareUltralight_readCommand page).getD 4 0 = 4 * 4 := by
  simp [mifareUltralight_readCommand, arrayInit, Nat.mod_eq_of_lt hpage]

/-- Witness of the amended C6 on the page of the source. -/
theorem ultralight_read_command_witness :
    mifareUltralight_readCommand 4 = [0xFF, 0xB0, 0x00, 4, 0x10] :=
  (ultralight_read_command 4 (by decide)).1

/-- C7, as stated, fails: when `SCardListReaders` succeeds with an empty
multi-string, `listReaders` returns normally and `main` goes on to call
`SCardConnect`. -/
theorem listReaders_empty_counterexample :
    emptyListManager.SCardListReaders
        [Call.SCardEstablishContext 2, Call.SCardListReaders 7] = (0, [0]) ∧
    ((establishContext pcsclite emptyListManager State.initial).andThen
      (listReaders pcsclite emptyListManager)).returned = true ∧
    (main pcsclite emptyListManager).callCount .connect = 1 := by
  decide

/-- C7, amended: `listReaders` exits with status 1 whenever `SCardListReaders`
returns an error, and `main` then makes no further call; when
`SCardListReaders` succeeds with a multi-string whose first byte is NUL,
`listReaders` prints no reader and returns normally, and `main` goes on to call
`SCardConnect`. -/
theorem listReaders_error_or_empty (K : Winscard) (rm : ResourceManager) :
    (∀ s, (rm.SCardListReaders (s.calls ++ [Call.SCardListReaders s.applicationContext])).1
        ≠ K.SCARD_S_SUCCESS →
      (listReaders K rm s).exitCode = some 1 ∧
      (listReaders K rm s).state.calls
        = s.calls ++ [Call.SCardListReaders s.applicationContext]) ∧
    (∀ s, (rm.SCardListReaders (s.calls ++ [Call.SCardListReaders s.applicationContext])).1
        = K.SCARD_S_SUCCESS →
      (rm.SCardListReaders
        (s.calls ++ [Call.SCardListReaders s.applicationContext])).2.head? = some 0 →
      (listReaders K rm s).returned = true ∧
      (listReaders K rm s).state.stdout = s.stdout) ∧
    ((rm.SCardEstablishContext [Call.SCardEstablishContext K.SCARD_SCOPE_SYSTEM]).1
        = K.SCARD_S_SUCCESS →
      ((rm.SCardListReaders [Call.SCardEstablishContext K.SCARD_SCOPE_SYSTEM,
          Call.SCardListReaders
            (rm.SCardEstablishContext [Call.SCardEstablishContext K.SCARD_SCOPE_SYSTEM]).2]).1
          ≠ K.SCARD_S_SUCCESS →
        (main K rm).exitCode = some 1 ∧
        (main K rm).state.calls = [Call.SCardEstablishContext K.SCARD_SCOPE_SYSTEM,
          Call.SCardListReaders
            (rm.SCardEstablishContext [Call.SCardEstablishContext K.SCARD_SCOPE_SYSTEM]).2]) ∧
      ((rm.SCardListReaders [Call.SCardEstablishContext K.SCARD_SCOPE_SYSTEM,
          Call.SCardListReaders
            (rm.SCardEstablishContext [Call.SCardEstablishContext K.SCARD_SCOPE_SYSTEM]).2]).1
          = K.SCARD_S_SUCCESS →
        (rm.SCardListReaders [Call.SCardEstablishContext K.SCARD_SCOPE_SYSTEM,
          Call.SCardListReaders
            (rm.SCardEstablishContext [Call.SCardEstablishContext K.SCARD_SCOPE_SYSTEM]).2]).2.head?
          = some 0 →
        ∃ rest, (main K rm).state.calls = [Call.SCardEstablishContext K.SCARD_SCOPE_SYSTEM,
          Call.SCardListReaders
            (rm.SCardEstablishContext [Call.SCardEstablishContext K.SCARD_SCOPE_SYSTEM]).2,
          Call.SCardConnect
            (rm.SCardEstablishContext [Call.SCardEstablishContext K.SCARD_SCOPE_SYSTEM]).2
            (some (rm.SCardListReaders [Call.SCardEstablishContext K.SCARD_SCOPE_SYSTEM,
              Call.SCardListReaders (rm.SCardEstablishContext
                [Call.SCardEstablishContext K.SCARD_SCOPE_SYSTEM]).2]).2)
            K.SCARD_SHARE_SHARED (K.SCARD_PROTOCOL_T0 ||| K.SCARD_PROTOCOL_T1)] ++ rest)) := by
  refine ⟨fun s h => ?_, fun s h hempty => ?_, fun hE => ?_⟩
  · rw [listReaders_of_error K rm s h]
    exact ⟨rfl, by simp [Outcome.state, State.calls, State.printf, State.record]⟩
  · rw [listReaders_of_empty K rm s h hempty]
    exact ⟨rfl, rfl⟩
  · have h1 : establishContext K rm State.initial = .running
        (((State.initial.record (Call.SCardEstablishContext K.SCARD_SCOPE_SYSTEM)
          (rm.SCardEstablishContext [Call.SCardEstablishContext K.SCARD_SCOPE_SYSTEM]).1).setApplicationContext
          (rm.SCardEstablishContext [Call.SCardEstablishContext K.SCARD_SCOPE_SYSTEM]).2).printf
          [.lit "Context established\n"]) :=
      if_pos hE
    refine ⟨fun hL => ?_, fun hL hempty => ?_⟩
    · have h2 := listReaders_of_error K rm
        (((State.initial.record (Call.SCardEstablishContext K.SCARD_SCOPE_SYSTEM)
          (rm.SCardEstablishContext [Call.SCardEstablishContext K.SCARD_SCOPE_SYSTEM]).1).setApplicationContext
          (rm.SCardEstablishContext [Call.SCardEstablishContext K.SCARD_SCOPE_SYSTEM]).2).printf
          [.lit "Context established\n"]) hL
      unfold main
      rw [h1]
      simp only [Outcome.andThen]
      rw [h2]
      exact ⟨rfl, rfl⟩
    · have h2 := listReaders_of_empty K rm
        (((State.initial.record (Call.SCardEstablishContext K.SCARD_SCOPE_SYSTEM)
          (rm.SCardEstablishContext [Call.SCardEstablishContext K.SCARD_SCOPE_SYSTEM]).1).setApplicationContext
          (rm.SCardEstablishContext [Call.SCardEstablishContext K.SCARD_SCOPE_SYSTEM]).2).printf
          [.lit "Context established\n"]) hL hempty
      unfold main
      rw [h1]
      simp only [Outcome.andThen]
      rw [h2]
      obtain ⟨rest, hrest⟩ := main_rest_calls K rm
        (((((State.initial.record (Call.SCardEstablishContext K.SCARD_SCOPE_SYSTEM)
          (rm.SCardEstablishContext [Call.SCardEstablishContext K.SCARD_SCOPE_SYSTEM]).1).setApplicationContext
          (rm.SCardEstablishContext [Call.SCardEstablishContext K.SCARD_SCOPE_SYSTEM]).2).printf
          [.lit "Context established\n"]).record
          (Call.SCardListReaders
            (rm.SCardEstablishContext [Call.SCardEstablishContext K.SCARD_SCOPE_SYSTEM]).2)
          (rm.SCardListReaders [Call.SCardEstablishContext K.SCARD_SCOPE_SYSTEM,
            Call.SCardListReaders (rm.SCardEstablishContext
              [Call.SCardEstablishContext K.SCARD_SCOPE_SYSTEM]).2]).1).setReader
          (some (rm.SCardListReaders [Call.SCardEstablishContext K.SCARD_SCOPE_SYSTEM,
            Call.SCardListReaders (rm.SCardEstablishContext
              [Call.SCardEstablishContext K.SCARD_SCOPE_SYSTEM]).2]).2))
      exact ⟨rest, hrest⟩

/-- Witness of the amended C7: a failing and an empty `SCardListReaders`. -/
theorem listReaders_error_or_empty_witness :
    (listReaders pcsclite failListManager State.initial).exitCode = some 1 ∧
    (main pcsclite failListManager).state.calls
      = [Call.SCardEstablishContext 2, Call.SCardListReaders 7] ∧
    ∃ rest, (main pcsclite emptyListManager).state.calls
      = [Call.SCardEstablishContext 2, Call.SCardListReaders 7,
          Call.SCardConnect 7 (some [0]) 2 3] ++ rest :=
  ⟨((listReaders_error_or_empty pcsclite failListManager).1 State.initial (by decide)).1,
    (((listReaders_error_or_empty pcsclite failListManager).2.2 (by decide)).1
      (by decide)).2,
    ((listReaders_error_or_empty pcsclite emptyListManager).2.2 (by decide)).2
      (by decide) (by decide)⟩

/-- C8: when `SCardListReaders` succeeds with a well-formed multi-string (the
names, each non-empty, free of NUL and followed by a NUL, then one more NUL),
`listReaders` returns normally after printing one "Reader found" line for each
name, each once, in the order of the multi-string. -/
theorem listReaders_reports_names (K : Winscard) (rm : ResourceManager) (s : State)
    (names : List (List Nat)) (hwf : ∀ name ∈ names, name ≠ [] ∧ ∀ c ∈ name, c ≠ 0)
    (hreply : rm.SCardListReaders (s.calls ++ [Call.SCardListReaders s.applicationContext])
      = (K.SCARD_S_SUCCESS, multiString names)) :
    listReaders K rm s = .running
      (((s.record (Call.SCardListReaders s.applicationContext) K.SCARD_S_SUCCESS).setReader
          (some (multiString names))).printf (readersFound names)) := by
  have hloop := listReadersLoop_multiString names [] ((multiString names).length + 1)
    ((s.record (Call.SCardListReaders s.applicationContext) K.SCARD_S_SUCCESS).setReader
      (some (multiString names))) hwf
    (Nat.lt_succ_of_lt (multiString_length names))
  simp only [List.nil_append, List.length_nil] at hloop
  simp only [listReaders, hreply, if_true, hloop]

/-- Witness of C8 on the two readers `"R"` and `"ST"`. -/
theorem listReaders_reports_names_witness :
    (∀ name ∈ [[82], [83, 84]], name ≠ [] ∧ ∀ c ∈ name, c ≠ 0) ∧
    twoReadersManager.SCardListReaders
        (State.initial.calls ++ [Call.SCardListReaders State.initial.applicationContext])
      = (pcsclite.SCARD_S_SUCCESS, multiString [[82], [83, 84]]) ∧
    (listReaders pcsclite twoReadersManager State.initial).returned = true ∧
    (listReaders pcsclite twoReadersManager State.initial).state.stdout
      = [.lit "Reader found: ", .str [82], .lit "\n",
          .lit "Reader found: ", .str [83, 84], .lit "\n"] :=
  ⟨by decide, by decide, by decide,
    by rw [listReaders_reports_names pcsclite twoReadersManager State.initial [[82], [83, 84]]
      (by decide) (by decide)]; decide⟩

/-- C9: each command with a data field (Ultralight write, Classic load key,
Classic authenticate, Classic write) has 5 bytes more than its length byte at
index 4 declares, and that byte is 4, 6, 5 and 16 respectively, whatever the
page, block, key and data. -/
theorem data_commands_well_formed (page block : Nat) (key data4 data16 : List Nat) :
    ((mifareUltralight_writeCommand page data4).length
        = 5 + (mifareUltralight_writeCommand page data4).getD 4 0 ∧
      (mifareUltralight_writeCommand page data4).getD 4 0 = 4) ∧
    ((mifareClassic_authenticationKeysCommand key).length
        = 5 + (mifareClassic_authenticationKeysCommand key).getD 4 0 ∧
      (mifareClassic_authenticationKeysCommand key).getD 4 0 = 6) ∧
    ((mifareClassic_authenticateCommand block).length
        = 5 + (mifareClassic_authenticateCommand block).getD 4 0 ∧
      (mifareClassic_authenticateCommand block).getD 4 0 = 5) ∧
    ((mifareClassic_writeCommand block data16).length
        = 5 + (mifareClassic_writeCommand block data16).getD 4 0 ∧
      (mifareClassic_writeCommand block data16).getD 4 0 = 16) := by
  simp [mifareUltralight_writeCommand, mifareClassic_authenticationKeysCommand,
    mifareClassic_authenticateCommand, mifareClassic_writeCommand, copyAt5, arrayInit,
    List.range_succ, copyAt5_length]

end ACR122U
